import Mathlib

/-!
Shallow embedding of the Pixpel NFT marketplace Concordium contract
(`src/lib.rs`, contract "Pixpel-NFTMarketplace").

The contract keeps one `StateMap<TokenInfo, TokenState>`; its receive
functions are `place_into_market` (`add`), `trade_market` (`trade_nft`),
`cancel_trade` and `finalise_trade`.  External interactions (parameter
deserialisation, CIS-2 gateway queries, the CIS-2 `transfer` invocation and
native `invoke_transfer`) are modelled as oracle inputs in `ExtCtx`; outgoing
value/token movements are recorded as an `Effect` list.  Machine integers
(`u8` tags, `u64` expiry and micro-CCD amounts) are modelled as `Nat`:
the contract only compares and copies them, never does arithmetic, so no
overflow can occur.

A load-bearing detail of the source, reproduced faithfully here: in
`trade_nft`, `cancel_trade` and `finalise_trade` the record is obtained via
`.entry(info).occupied_or(..)?.to_owned()`, an owned copy; every field
assignment after that point mutates only the copy and is never written back,
so the stored map is mutated by `add` alone.
-/

namespace Pixpel

/-- A Concordium contract address (index, subindex). -/
structure ContractAddress where
  index : Nat
  subindex : Nat
deriving DecidableEq, Repr

/-- A 32-byte account address, modelled as a number.  The all-zero address
`AccountAddress([0u8; 32])` used by the contract as the "no bidder" sentinel
is `0`. -/
abbrev AccountAddress := Nat

/-- The sentinel "no bidder" account, `AccountAddress([0u8; 32])`. -/
def sentinel : AccountAddress := 0

/-- A CCD amount in micro CCD (`Amount { micro_ccd: u64 }`). -/
abbrev Amount := Nat

/-- Key of the listing map: `TokenInfo { id, address }`. -/
structure TokenInfo where
  id : Nat
  address : ContractAddress
deriving DecidableEq, Repr

/-- `enum TokenListState { UnListed, Listed }`. -/
inductive TokenListState where
  | UnListed
  | Listed
deriving DecidableEq, Repr

/-- `enum TokenSaleTypeState { Fixed, Auction }`. -/
inductive TokenSaleTypeState where
  | Fixed
  | Auction
deriving DecidableEq, Repr

/-- One listing record, `struct TokenState`. -/
structure TokenState where
  sale_type : TokenSaleTypeState
  curr_state : TokenListState
  owner : AccountAddress
  expiry : Nat
  highest_bidder : AccountAddress
  price : Amount
deriving DecidableEq, Repr

/-- `enum Cis2ClientError`. -/
inductive Cis2ClientError where
  | InvokeContractError
  | ParseParams
  | ParseResult
deriving DecidableEq, Repr

/-- `enum MarketplaceError`. -/
inductive MarketplaceError where
  | ParseParams
  | CalledByAContract
  | TokenNotListed
  | Cis2ClientError (e : Cis2ClientError)
  | CollectionNotCis2
  | InvalidAmountPaid
  | InvokeTransferError
  | NoBalance
  | NotOperator
  | NotMatchedSaleType
  | NotEnoughBalance
  | ExpiredAlready
  | CanNotBidYourSelf
  | CanceledAlready
  | Unauthorized
  | NotBidded
deriving DecidableEq, Repr

/-- The listing map, an association list with at most one binding per key
(mirrors `StateMap<TokenInfo, TokenState, S>`). -/
abbrev TokenMap := List (TokenInfo × TokenState)

/-- `tokens.get(&k)`. -/
def mapGet : TokenMap → TokenInfo → Option TokenState
  | [], _ => none
  | (k0, v0) :: rest, k => if k0 = k then some v0 else mapGet rest k

/-- Store a binding: replaces the existing binding for the key when present,
appends otherwise.  Serves both `tokens.insert(k, v)` on an absent key and a
full in-place update through `tokens.entry(k)` on a present key. -/
def mapSet : TokenMap → TokenInfo → TokenState → TokenMap
  | [], k, v => [(k, v)]
  | (k0, v0) :: rest, k, v =>
      if k0 = k then (k, v) :: rest else (k0, v0) :: mapSet rest k v

/-- `concordium_std::Address`: an account or a contract. -/
inductive Address where
  | Account (addr : AccountAddress)
  | Contract (addr : ContractAddress)
deriving DecidableEq, Repr

/-- `Address::matches_account`. -/
def Address.matches_account : Address → AccountAddress → Bool
  | .Account a, b => a == b
  | .Contract _, _ => false

/-- The receive context: `ctx.invoker()`, `ctx.sender()` and
`ctx.metadata().slot_time()` in milliseconds. -/
structure ReceiveCtx where
  invoker : AccountAddress
  sender : Address
  slot_time : Nat
deriving DecidableEq, Repr

/-- Outcome of one external CIS-2 gateway call. -/
inductive ExtResult (α : Type) where
  | ok (val : α)
  | err (e : Cis2ClientError)
deriving DecidableEq, Repr

/-- Oracle inputs for everything outside the own state of the marketplace:
whether the parameter cursor deserialises, and the outcomes of the gateway
calls (`supports_cis2`, `is_operator_of`, `has_balance`, the CIS-2
`transfer` invocation) and of `host.invoke_transfer`. -/
structure ExtCtx where
  parse_ok : Bool
  supports_cis2 : ExtResult Bool
  is_operator_of : ExtResult Bool
  has_balance : ExtResult Bool
  cis2_transfer : ExtResult Unit
  invoke_transfer_ok : Bool
deriving DecidableEq, Repr

/-- An outward money/token movement performed by an operation. -/
inductive Effect where
  | invoke_transfer (dest : AccountAddress) (amount : Amount)
  | cis2_transfer (token_id : Nat) (addr : ContractAddress) (amount : Nat)
      (from_ : AccountAddress) (dest : AccountAddress)
deriving DecidableEq, Repr

/-- `ContractResult<()>` together with the effects emitted on success. -/
inductive OpResult where
  | ok (effects : List Effect)
  | err (e : MarketplaceError)
deriving DecidableEq, Repr

/-- Result of running one receive function: the listing map as left by the
function body, and the contract result. -/
abbrev RunResult := TokenMap × OpResult

/-- `struct PlaceIntoMarketParams`. -/
structure PlaceIntoMarketParams where
  nft_contract_address : ContractAddress
  token_id : Nat
  price : Amount
  sale_type : Nat
  expiry : Nat
deriving DecidableEq, Repr

/-- `struct TradeNftParams` (its `price` field is never read by the body). -/
structure TradeNftParams where
  nft_contract_address : ContractAddress
  token_id : Nat
  price : Amount
  sale_type : Nat
deriving DecidableEq, Repr

/-- `struct CancelTradeParams`. -/
structure CancelTradeParams where
  nft_contract_address : ContractAddress
  token_id : Nat
  sale_type : Nat
deriving DecidableEq, Repr

/-- `struct FinaliseTradeParams`. -/
structure FinaliseTradeParams where
  nft_contract_address : ContractAddress
  token_id : Nat
  sale_type : Nat
deriving DecidableEq, Repr

/-- `ensure_supports_cis2`: propagate a gateway error, else require full
CIS-2 support.  Returns `some e` on failure. -/
def ensure_supports_cis2 (ext : ExtCtx) : Option MarketplaceError :=
  match ext.supports_cis2 with
  | .err e => some (.Cis2ClientError e)
  | .ok b => if b then none else some .CollectionNotCis2

/-- `ensure_is_operator`. -/
def ensure_is_operator (ext : ExtCtx) : Option MarketplaceError :=
  match ext.is_operator_of with
  | .err e => some (.Cis2ClientError e)
  | .ok b => if b then none else some .NotOperator

/-- `ensure_balance`. -/
def ensure_balance (ext : ExtCtx) : Option MarketplaceError :=
  match ext.has_balance with
  | .err e => some (.Cis2ClientError e)
  | .ok b => if b then none else some .NoBalance

/-- `place_into_market` (`fn add`).  After the three gateway checks it
upserts the record: when the key is present, every field is overwritten
through the map entry with `expiry = params.expiry`; when absent, a fresh
record is inserted with the local `expiry = 0u64` (the source ignores
`params.expiry` in this branch). -/
def add (ext : ExtCtx) (ctx : ReceiveCtx) (params : PlaceIntoMarketParams)
    (m : TokenMap) : RunResult :=
  if ext.parse_ok = false then (m, .err .ParseParams) else
  match ensure_supports_cis2 ext with
  | some e => (m, .err e)
  | none =>
  match ensure_is_operator ext with
  | some e => (m, .err e)
  | none =>
  match ensure_balance ext with
  | some e => (m, .err e)
  | none =>
  match mapGet m ⟨params.token_id, params.nft_contract_address⟩ with
  | some _ =>
      (mapSet m ⟨params.token_id, params.nft_contract_address⟩
        { sale_type := if params.sale_type = 0 then .Fixed else .Auction
          curr_state := .Listed
          owner := ctx.invoker
          expiry := params.expiry
          highest_bidder := sentinel
          price := params.price }, .ok [])
  | none =>
      (mapSet m ⟨params.token_id, params.nft_contract_address⟩
        { sale_type := if params.sale_type = 0 then .Fixed else .Auction
          curr_state := .Listed
          owner := ctx.invoker
          expiry := 0
          highest_bidder := sentinel
          price := params.price }, .ok [])

/-- `trade_market` (`fn trade_nft`).  `token_state` is an owned copy
(`.to_owned()`); the assignments at the end of each branch in the source
mutate only that copy, so the returned map is always the input map. -/
def trade_nft (ext : ExtCtx) (ctx : ReceiveCtx) (params : TradeNftParams)
    (amount : Amount) (m : TokenMap) : RunResult :=
  if ext.parse_ok = false then (m, .err .ParseParams) else
  match mapGet m ⟨params.token_id, params.nft_contract_address⟩ with
  | none => (m, .err .TokenNotListed)
  | some token_state =>
    if amount ≤ token_state.price then (m, .err .NotEnoughBalance) else
    if params.sale_type = 0 then
      if token_state.sale_type ≠ .Fixed then (m, .err .NotMatchedSaleType) else
      match ext.cis2_transfer with
      | .err e => (m, .err (.Cis2ClientError e))
      | .ok _ =>
        if ext.invoke_transfer_ok = false then (m, .err .InvokeTransferError) else
        (m, .ok [.cis2_transfer params.token_id params.nft_contract_address 1
                   token_state.owner ctx.invoker,
                 .invoke_transfer token_state.owner amount])
    else if params.sale_type = 1 then
      if token_state.sale_type ≠ .Auction then (m, .err .NotMatchedSaleType) else
      if ¬ ctx.slot_time ≤ token_state.expiry then (m, .err .ExpiredAlready) else
      if ctx.invoker = token_state.owner then (m, .err .CanNotBidYourSelf) else
      if token_state.highest_bidder ≠ sentinel then
        if ext.invoke_transfer_ok = false then (m, .err .InvokeTransferError) else
        (m, .ok [.invoke_transfer token_state.highest_bidder token_state.price])
      else (m, .ok [])
    else (m, .ok [])

/-- `cancel_trade`.  As in `trade_nft`, the trailing reset assignments in
the source act on the owned copy only. -/
def cancel_trade (ext : ExtCtx) (ctx : ReceiveCtx) (params : CancelTradeParams)
    (m : TokenMap) : RunResult :=
  if ext.parse_ok = false then (m, .err .ParseParams) else
  match mapGet m ⟨params.token_id, params.nft_contract_address⟩ with
  | none => (m, .err .TokenNotListed)
  | some token_state =>
    if token_state.curr_state ≠ .Listed then (m, .err .CanceledAlready) else
    if ctx.sender.matches_account token_state.owner = false then (m, .err .Unauthorized) else
    if params.sale_type = 0 then
      if token_state.sale_type ≠ .Fixed then (m, .err .NotMatchedSaleType) else
      (m, .ok [])
    else if params.sale_type = 1 then
      if token_state.sale_type ≠ .Auction then (m, .err .NotMatchedSaleType) else
      (m, .ok [])
    else (m, .ok [])

/-- `finalise_trade`.  Note two features of the source kept verbatim: the
sale-type guard is `params.sale_type.cmp(&1u8).is_ge()`, and the CIS-2
transfer receiver is `Receiver::Account(ctx.invoker())` — the caller, not
`token_state.highest_bidder`.  The reset assignments act on the owned copy. -/
def finalise_trade (ext : ExtCtx) (ctx : ReceiveCtx) (params : FinaliseTradeParams)
    (m : TokenMap) : RunResult :=
  if ext.parse_ok = false then (m, .err .ParseParams) else
  if params.sale_type < 1 then (m, .err .NotMatchedSaleType) else
  match mapGet m ⟨params.token_id, params.nft_contract_address⟩ with
  | none => (m, .err .TokenNotListed)
  | some token_state =>
    if ctx.sender.matches_account token_state.owner = false then (m, .err .Unauthorized) else
    if token_state.highest_bidder ≠ sentinel then
      if ext.invoke_transfer_ok = false then (m, .err .InvokeTransferError) else
      match ext.cis2_transfer with
      | .err e => (m, .err (.Cis2ClientError e))
      | .ok _ =>
        (m, .ok [.invoke_transfer token_state.owner token_state.price,
                 .cis2_transfer params.token_id params.nft_contract_address 1
                   token_state.owner ctx.invoker])
    else (m, .err .NotBidded)

/-- One invocation of a receive function with all of its inputs. -/
inductive Op where
  | place (ext : ExtCtx) (ctx : ReceiveCtx) (params : PlaceIntoMarketParams)
  | trade (ext : ExtCtx) (ctx : ReceiveCtx) (params : TradeNftParams) (amount : Amount)
  | cancel (ext : ExtCtx) (ctx : ReceiveCtx) (params : CancelTradeParams)
  | finalise (ext : ExtCtx) (ctx : ReceiveCtx) (params : FinaliseTradeParams)

/-- Run one invocation on the listing map. -/
def runOp : Op → TokenMap → RunResult
  | .place ext ctx p, m => add ext ctx p m
  | .trade ext ctx p a, m => trade_nft ext ctx p a m
  | .cancel ext ctx p, m => cancel_trade ext ctx p m
  | .finalise ext ctx p, m => finalise_trade ext ctx p m

/-- The listing map left behind by one invocation. -/
def applyOp (op : Op) (m : TokenMap) : TokenMap := (runOp op m).1

/-- Listing maps reachable from the initial empty state by any sequence of
invocations. -/
inductive Reachable : TokenMap → Prop where
  | init : Reachable []
  | step (m : TokenMap) (op : Op) : Reachable m → Reachable (applyOp op m)

/-- Every stored record is `Listed` with the sentinel bidder. -/
def goodMap (m : TokenMap) : Prop :=
  ∀ k ts, mapGet m k = some ts →
    ts.curr_state = TokenListState.Listed ∧ ts.highest_bidder = sentinel

/-- Did the invocation succeed? -/
def succeeded (r : RunResult) : Bool :=
  match r.2 with
  | .ok _ => true
  | .err _ => false

/-- All-success oracle: parameters parse, every gateway query answers
positively, every transfer goes through. -/
def extOk : ExtCtx :=
  { parse_ok := true
    supports_cis2 := .ok true
    is_operator_of := .ok true
    has_balance := .ok true
    cis2_transfer := .ok ()
    invoke_transfer_ok := true }

/-- Fixture: a fixed-price listing of token 1 on contract (7,0) by account 5
at price 100. -/
def C1map : TokenMap := [(⟨1, ⟨7, 0⟩⟩, ⟨.Fixed, .Listed, 5, 0, 0, 100⟩)]

/-- Fixture: an auction listing of token 2 on contract (7,0) by account 5,
price 100, expiry 1000, no bidder yet. -/
def C2map : TokenMap := [(⟨2, ⟨7, 0⟩⟩, ⟨.Auction, .Listed, 5, 1000, 0, 100⟩)]

/-- Fixture: an auction listing of token 3 on contract (7,0) by account 5
with an active bid: highest bidder 8, escrowed price 200. -/
def C4map : TokenMap := [(⟨3, ⟨7, 0⟩⟩, ⟨.Auction, .Listed, 5, 1000, 8, 200⟩)]

/-- C1: a fixed-price trade (tag 0, payment 101 > price 100) on the Listed
record of `C1map` succeeds and performs both transfers (token from owner 5
to buyer 9, payment 101 to owner 5), but the stored record is NOT reset:
the returned map equals the input map, whose record is still Listed with
owner 5, sentinel bidder and price 100 — not Unlisted with owner 9,
price 0.  The reset in the source is applied to a `.to_owned()` copy. -/
theorem C1_fixed_trade_transfers_but_record_not_reset :
    trade_nft extOk ⟨9, .Account 9, 0⟩ ⟨⟨7, 0⟩, 1, 0, 0⟩ 101 C1map
      = (C1map, .ok [.cis2_transfer 1 ⟨7, 0⟩ 1 5 9, .invoke_transfer 5 101])
    ∧ mapGet C1map ⟨1, ⟨7, 0⟩⟩
      = some ⟨.Fixed, .Listed, 5, 0, 0, 100⟩ := by
  decide

/-- C2: two successive auction bids (tag 1) on the Listed auction record of
`C2map` (ask 100, no bidder): account 8 bids 150, then account 9 bids 120.
Both succeed, neither bid changes the stored record (stored price stays 100
and the stored highest bidder stays the sentinel), the second accepted
amount 120 is lower than the first 150, and the second bid emits no refund
to account 8.  This refutes monotonic price, bidder tracking and the refund
equality of the claim: the bid updates in the source act on a `.to_owned()`
copy, so no bid is ever recorded. -/
theorem C2_auction_bids_do_not_update_price_or_bidder :
    trade_nft extOk ⟨8, .Account 8, 10⟩ ⟨⟨7, 0⟩, 2, 0, 1⟩ 150 C2map
      = (C2map, .ok [])
    ∧ trade_nft extOk ⟨9, .Account 9, 10⟩ ⟨⟨7, 0⟩, 2, 0, 1⟩ 120 C2map
      = (C2map, .ok [])
    ∧ mapGet C2map ⟨2, ⟨7, 0⟩⟩
      = some ⟨.Auction, .Listed, 5, 1000, 0, 100⟩ := by
  decide

/-- C3: the record owner (account 5) cancels the Listed fixed-price
listing of `C1map` with the matching tag 0.  The call succeeds, but the
returned map equals the input map: the stored record is still Listed with
price 100, not the neutral Unlisted state the claim requires — the reset
acts on a `.to_owned()` copy. -/
theorem C3_cancel_succeeds_but_record_not_reset :
    cancel_trade extOk ⟨5, .Account 5, 0⟩ ⟨⟨7, 0⟩, 1, 0⟩ C1map
      = (C1map, .ok [])
    ∧ mapGet C1map ⟨1, ⟨7, 0⟩⟩
      = some ⟨.Fixed, .Listed, 5, 0, 0, 100⟩ := by
  decide

/-- C4: the owner (account 5) finalises the auction record of `C4map`
(highest bidder 8, escrowed price 200).  The call succeeds and pays the
escrowed 200 to the seller, but the CIS-2 transfer moves the token from
account 5 to account 5 — `Receiver::Account(ctx.invoker())`, the calling
seller — not to the highest bidder 8; and the returned map equals the
input map, so the stored record is not reset to Unlisted either. -/
theorem C4_finalise_sends_token_to_caller_not_bidder :
    finalise_trade extOk ⟨5, .Account 5, 0⟩ ⟨⟨7, 0⟩, 3, 1⟩ C4map
      = (C4map, .ok [.invoke_transfer 5 200, .cis2_transfer 3 ⟨7, 0⟩ 1 5 5])
    ∧ mapGet C4map ⟨3, ⟨7, 0⟩⟩
      = some ⟨.Auction, .Listed, 5, 1000, 8, 200⟩ := by
  decide

/-- C5 counterexample: sale-type tag 2 does not match the Fixed record of
`C1map` (Fixed is tag 0), yet `trade_market` with tag 2 and payment 150
succeeds with `Ok(())` instead of failing with `NotMatchedSaleType` — the
dispatch in the source checks only tags 0 and 1 and falls through for every
other tag. -/
theorem C5_mismatched_tag_two_trade_succeeds :
    trade_nft extOk ⟨9, .Account 9, 0⟩ ⟨⟨7, 0⟩, 1, 0, 2⟩ 150 C1map
      = (C1map, .ok []) := by
  decide

/-- C7: `place_into_market` does not store the expiry the claim describes.
First conjunct: a fresh auction listing (flag 1, expiry 1000) stores
`expiry = 0` — the insert branch of the source uses the local
`expiry = 0u64`, ignoring `params.expiry` — while the claim requires the
given expiry 1000 for auctions.  Second conjunct: overwriting the existing
fixed-price record of `C1map` (flag 0, expiry 500) stores `expiry = 500` —
the update branch always uses `params.expiry` — while the claim requires 0
for fixed-price listings.  All other stored fields (owner, status, bidder,
price, sale type) are as the claim states. -/
theorem C7_list_stores_wrong_expiry :
    add extOk ⟨5, .Account 5, 0⟩ ⟨⟨7, 0⟩, 4, 100, 1, 1000⟩ []
      = ([(⟨4, ⟨7, 0⟩⟩, ⟨.Auction, .Listed, 5, 0, 0, 100⟩)], .ok [])
    ∧ add extOk ⟨5, .Account 5, 0⟩ ⟨⟨7, 0⟩, 1, 100, 0, 500⟩ C1map
      = ([(⟨1, ⟨7, 0⟩⟩, ⟨.Fixed, .Listed, 5, 500, 0, 100⟩)], .ok []) := by
  decide

/-- Looking a key up after a store: the stored value at the stored key,
the previous map elsewhere. -/
theorem mapGet_mapSet (m : TokenMap) (k k2 : TokenInfo) (v : TokenState) :
    mapGet (mapSet m k v) k2 = if k = k2 then some v else mapGet m k2 := by
  induction m with
  | nil => simp [mapGet, mapSet]
  | cons hd tl ih =>
    obtain ⟨k0, v0⟩ := hd
    by_cases h0 : k0 = k
    · subst h0
      by_cases h2 : k0 = k2 <;> simp [mapGet, mapSet, h2]
    · by_cases h2 : k0 = k2
      · subst h2
        have hk : ¬ k = k0 := fun h => h0 h.symm
        simp [mapGet, mapSet, h0, hk]
      · simp [mapGet, mapSet, h0, h2, ih]

/-- Storing a Listed record with the sentinel bidder preserves `goodMap`. -/
theorem goodMap_mapSet (m : TokenMap) (k : TokenInfo) (v : TokenState)
    (hm : goodMap m) (h1 : v.curr_state = TokenListState.Listed)
    (h2 : v.highest_bidder = sentinel) : goodMap (mapSet m k v) := by
  intro k2 ts hget
  rw [mapGet_mapSet] at hget
  by_cases hk : k = k2
  · simp [hk] at hget
    subst hget
    exact ⟨h1, h2⟩
  · simp [hk] at hget
    exact hm k2 ts hget

/-- `place_into_market` preserves `goodMap`: both the insert and the update
branch store `curr_state = Listed` and `highest_bidder = sentinel`. -/
theorem add_preserves_goodMap (ext : ExtCtx) (ctx : ReceiveCtx)
    (params : PlaceIntoMarketParams) (m : TokenMap) (hm : goodMap m) :
    goodMap (add ext ctx params m).1 := by
  unfold add
  repeat first
  | exact hm
  | exact goodMap_mapSet m _ _ hm rfl rfl
  | split

/-- `trade_market` returns the listing map it was given: every branch of
the body leaves the map untouched. -/
theorem trade_nft_fst (ext : ExtCtx) (ctx : ReceiveCtx) (params : TradeNftParams)
    (amount : Amount) (m : TokenMap) : (trade_nft ext ctx params amount m).1 = m := by
  unfold trade_nft
  repeat first
  | rfl
  | split

/-- `cancel_trade` returns the listing map it was given. -/
theorem cancel_trade_fst (ext : ExtCtx) (ctx : ReceiveCtx) (params : CancelTradeParams)
    (m : TokenMap) : (cancel_trade ext ctx params m).1 = m := by
  unfold cancel_trade
  repeat first
  | rfl
  | split

/-- `finalise_trade` returns the listing map it was given. -/
theorem finalise_trade_fst (ext : ExtCtx) (ctx : ReceiveCtx) (params : FinaliseTradeParams)
    (m : TokenMap) : (finalise_trade ext ctx params m).1 = m := by
  unfold finalise_trade
  repeat first
  | rfl
  | split

/-- Invariant of every reachable listing map: each stored record is Listed
with the sentinel bidder.  Induction over the operation sequence: the empty
map holds it, `place_into_market` stores only such records, and the other
three operations never write the map. -/
theorem reachable_goodMap (m : TokenMap) (h : Reachable m) : goodMap m := by
  induction h with
  | init => intro k ts hget; simp [mapGet] at hget
  | step m0 op h0 ih =>
    cases op with
    | place ext ctx params => exact add_preserves_goodMap ext ctx params m0 ih
    | trade ext ctx params amount =>
        show goodMap (trade_nft ext ctx params amount m0).1
        rw [trade_nft_fst]; exact ih
    | cancel ext ctx params =>
        show goodMap (cancel_trade ext ctx params m0).1
        rw [cancel_trade_fst]; exact ih
    | finalise ext ctx params =>
        show goodMap (finalise_trade ext ctx params m0).1
        rw [finalise_trade_fst]; exact ih

/-- When `place_into_market` fails, the listing map is unchanged: all of
its checks precede the single upsert, and the upsert branch always ends in
`Ok`. -/
theorem add_err_fst (ext : ExtCtx) (ctx : ReceiveCtx) (params : PlaceIntoMarketParams)
    (m : TokenMap) (e : MarketplaceError)
    (h : (add ext ctx params m).2 = OpResult.err e) : (add ext ctx params m).1 = m := by
  unfold add at h ⊢
  by_cases hp : ext.parse_ok = false
  · simp [hp]
  · simp only [if_neg hp] at h ⊢
    cases hs : ensure_supports_cis2 ext with
    | some e2 => simp [hs]
    | none =>
      simp only [hs] at h ⊢
      cases ho : ensure_is_operator ext with
      | some e2 => simp [ho]
      | none =>
        simp only [ho] at h ⊢
        cases hb : ensure_balance ext with
        | some e2 => simp [hb]
        | none =>
          simp only [hb] at h ⊢
          cases hg : mapGet m ⟨params.token_id, params.nft_contract_address⟩ <;>
            simp [hg] at h

/-- C5 (amended): for the two tags the dispatch actually checks, a
mismatched tag is rejected and the map is left unchanged: `trade_market`
and `cancel_trade` fail with `NotMatchedSaleType` when called with tag 0 on
an Auction record or tag 1 on a Fixed record (once the checks that precede
the dispatch pass: record exists, payment above price, record Listed,
caller is the owner); and `finalise_trade` fails with `NotMatchedSaleType`
on tag 0 for every record.  Tags other than 0 and 1 fall through the
dispatch of `trade_market` and `cancel_trade` and are not rejected, and
`finalise_trade` accepts every tag at least 1 — the original claim fails
there, see the counterexample. -/
theorem C5_amended_mismatch_tags_zero_one (ext : ExtCtx) (ctx : ReceiveCtx) (m : TokenMap)
    (addr : ContractAddress) (tid : Nat) (p : Amount) (tag : Nat) (amount : Amount)
    (ts : TokenState)
    (hparse : ext.parse_ok = true)
    (hget : mapGet m ⟨tid, addr⟩ = some ts)
    (hmm : tag = 0 ∧ ts.sale_type = .Auction ∨ tag = 1 ∧ ts.sale_type = .Fixed)
    (hamt : ts.price < amount)
    (hlisted : ts.curr_state = TokenListState.Listed)
    (hsender : ctx.sender.matches_account ts.owner = true) :
    trade_nft ext ctx ⟨addr, tid, p, tag⟩ amount m = (m, .err .NotMatchedSaleType) ∧
    cancel_trade ext ctx ⟨addr, tid, tag⟩ m = (m, .err .NotMatchedSaleType) ∧
    finalise_trade ext ctx ⟨addr, tid, 0⟩ m = (m, .err .NotMatchedSaleType) := by
  have hle : ¬ amount ≤ ts.price := not_le.mpr hamt
  rcases hmm with ⟨htag, hst⟩ | ⟨htag, hst⟩ <;> subst htag <;>
    refine ⟨?_, ?_, ?_⟩ <;>
    simp [trade_nft, cancel_trade, finalise_trade, hparse, hget, hle, hst, hlisted, hsender]

/-- Witness for the amended C5: tag 0 against the Auction record of
`C2map`, with payment 150 above the price 100, called by the owner 5. -/
theorem C5_amended_witness :
    trade_nft extOk ⟨5, .Account 5, 0⟩ ⟨⟨7, 0⟩, 2, 0, 0⟩ 150 C2map
      = (C2map, .err .NotMatchedSaleType) ∧
    cancel_trade extOk ⟨5, .Account 5, 0⟩ ⟨⟨7, 0⟩, 2, 0⟩ C2map
      = (C2map, .err .NotMatchedSaleType) ∧
    finalise_trade extOk ⟨5, .Account 5, 0⟩ ⟨⟨7, 0⟩, 2, 0⟩ C2map
      = (C2map, .err .NotMatchedSaleType) :=
  C5_amended_mismatch_tags_zero_one extOk ⟨5, .Account 5, 0⟩ C2map ⟨7, 0⟩ 2 0 0 150
    ⟨.Auction, .Listed, 5, 1000, 0, 100⟩ rfl (by decide) (Or.inl ⟨rfl, rfl⟩)
    (by decide) rfl rfl

/-- C6: in every listing map reachable from the initial empty map by any
sequence of the four operations, every stored record has status Listed and
the sentinel highest bidder.  `place_into_market` is the only operation
whose writes reach the map and it always stores Listed with the sentinel;
the other three operations mutate an owned copy only. -/
theorem C6_reachable_records_listed_with_sentinel_bidder (m : TokenMap)
    (h : Reachable m) (k : TokenInfo) (ts : TokenState)
    (hget : mapGet m k = some ts) :
    ts.curr_state = TokenListState.Listed ∧ ts.highest_bidder = sentinel :=
  reachable_goodMap m h k ts hget

/-- Witness for C6: the record stored by one `place_into_market` call on
the empty map. -/
theorem C6_witness :
    (⟨.Fixed, .Listed, 5, 0, 0, 100⟩ : TokenState).curr_state = TokenListState.Listed ∧
    (⟨.Fixed, .Listed, 5, 0, 0, 100⟩ : TokenState).highest_bidder = sentinel :=
  C6_reachable_records_listed_with_sentinel_bidder
    (applyOp (.place extOk ⟨5, .Account 5, 0⟩ ⟨⟨7, 0⟩, 1, 100, 0, 0⟩) [])
    (Reachable.step [] _ Reachable.init)
    ⟨1, ⟨7, 0⟩⟩ ⟨.Fixed, .Listed, 5, 0, 0, 100⟩ (by decide)

/-- C8: for an existing listing record, `trade_market` fails with
`NotEnoughBalance` exactly when the attached payment is at most the stored
price — payment equal to the price is rejected, payment strictly above it
passes this check (any later failure carries a different error). -/
theorem C8_trade_requires_strictly_more_than_price (ext : ExtCtx) (ctx : ReceiveCtx)
    (addr : ContractAddress) (tid : Nat) (p : Amount) (tag : Nat) (amount : Amount)
    (m : TokenMap) (ts : TokenState)
    (hparse : ext.parse_ok = true)
    (hget : mapGet m ⟨tid, addr⟩ = some ts) :
    (trade_nft ext ctx ⟨addr, tid, p, tag⟩ amount m).2 = OpResult.err .NotEnoughBalance
      ↔ amount ≤ ts.price := by
  by_cases hle : amount ≤ ts.price
  · simp [trade_nft, hparse, hget, hle]
  · simp only [trade_nft, hparse, hget, hle, iff_false]
    simp only [Bool.true_eq_false, if_false, if_neg hle]
    intro hcontra
    repeat first
    | (simp at hcontra)
    | (split at hcontra)

/-- Witness for C8: payment exactly equal to the price 100 of the `C1map`
record is rejected with `NotEnoughBalance`. -/
theorem C8_witness :
    ((trade_nft extOk ⟨9, .Account 9, 0⟩ ⟨⟨7, 0⟩, 1, 0, 0⟩ 100 C1map).2
        = OpResult.err .NotEnoughBalance)
      ↔ 100 ≤ (⟨.Fixed, .Listed, 5, 0, 0, 100⟩ : TokenState).price :=
  C8_trade_requires_strictly_more_than_price extOk ⟨9, .Account 9, 0⟩ ⟨7, 0⟩ 1 0 0 100
    C1map ⟨.Fixed, .Listed, 5, 0, 0, 100⟩ rfl (by decide)

/-- C9: whenever any of the four operations returns an error, the listing
map after the call is the map before the call.  For `trade_market`,
`cancel_trade` and `finalise_trade` no branch at all writes the map; in
`place_into_market` every check precedes the single upsert and the upsert
always ends in success. -/
theorem C9_error_leaves_map_unchanged (op : Op) (m : TokenMap) (e : MarketplaceError)
    (h : (runOp op m).2 = OpResult.err e) : (runOp op m).1 = m := by
  cases op with
  | place ext ctx params => exact add_err_fst ext ctx params m e h
  | trade ext ctx params amount => exact trade_nft_fst ext ctx params amount m
  | cancel ext ctx params => exact cancel_trade_fst ext ctx params m
  | finalise ext ctx params => exact finalise_trade_fst ext ctx params m

/-- Witness for C9: a fixed-price trade at payment 100 against the price
100 of the `C1map` record fails (`NotEnoughBalance`) and leaves the map. -/
theorem C9_witness :
    (runOp (.trade extOk ⟨9, .Account 9, 0⟩ ⟨⟨7, 0⟩, 1, 0, 0⟩ 100) C1map).1 = C1map :=
  C9_error_leaves_map_unchanged _ C1map .NotEnoughBalance (by decide)

/-- C10: from every reachable listing map, `finalise_trade` never succeeds,
whatever the oracle answers, the caller and the parameters: every stored
record carries the sentinel highest bidder (see the reachable invariant),
so once parse, tag, existence and authorization checks pass, the
`NotBidded` branch is taken. -/
theorem C10_finalise_never_succeeds_from_reachable (m : TokenMap) (h : Reachable m)
    (ext : ExtCtx) (ctx : ReceiveCtx) (params : FinaliseTradeParams) :
    succeeded (finalise_trade ext ctx params m) = false := by
  have hg := reachable_goodMap m h
  unfold finalise_trade
  by_cases hp : ext.parse_ok = false
  · simp [hp, succeeded]
  · simp only [if_neg hp]
    by_cases htag : params.sale_type < 1
    · simp [htag, succeeded]
    · simp only [if_neg htag]
      cases hget : mapGet m ⟨params.token_id, params.nft_contract_address⟩ with
      | none => simp [succeeded]
      | some ts =>
        have hb : ts.highest_bidder = sentinel := (hg _ _ hget).2
        by_cases hsend : ctx.sender.matches_account ts.owner = false
        · simp [hsend, succeeded]
        · simp [hsend, hb, succeeded]

/-- Witness for C10: the owner lists a token and then calls
`finalise_trade` with tag 1 and an all-success oracle; the call still does
not succeed. -/
theorem C10_witness :
    succeeded (finalise_trade extOk ⟨5, .Account 5, 0⟩ ⟨⟨7, 0⟩, 1, 1⟩
      (applyOp (.place extOk ⟨5, .Account 5, 0⟩ ⟨⟨7, 0⟩, 1, 100, 0, 0⟩) [])) = false :=
  C10_finalise_never_succeeds_from_reachable
    (applyOp (.place extOk ⟨5, .Account 5, 0⟩ ⟨⟨7, 0⟩, 1, 100, 0, 0⟩) [])
    (Reachable.step [] _ Reachable.init) extOk ⟨5, .Account 5, 0⟩ ⟨⟨7, 0⟩, 1, 1⟩

end Pixpel
